import Mathlib

/-!
Verification of the KiroProxy account-lifecycle core.

This file shallowly embeds the Python modules under kiro_proxy/core
(quota_cache.py, account.py, account_selector.py, refresh_manager.py,
quota_scheduler.py, history_manager.py) as executable Lean definitions and
proves the specified properties about them.  Python floats are modelled as
exact rationals; external calls (usage fetch, token refresh, summarizer,
summary cache) are modelled as oracle parameters.
-/

namespace KiroProxy

/-! ## String helpers: Python substring and lower-casing -/

/-- Does the character list start with the given needle. -/
def charsStartWith : List Char → List Char → Bool
  | [], _ => true
  | _ :: _, [] => false
  | a :: as, b :: bs => a == b && charsStartWith as bs

/-- Does the character list contain the needle as a contiguous run. -/
def charsContain (needle : List Char) : List Char → Bool
  | [] => charsStartWith needle []
  | b :: bs => charsStartWith needle (b :: bs) || charsContain needle bs

/-- Embedding of the Python expression needle in hay. -/
def containsSub (hay needle : String) : Bool :=
  charsContain needle.data hay.data

/-- Embedding of Python str.lower (per character). -/
def strLower (s : String) : String :=
  ⟨s.data.map Char.toLower⟩

/-! ## quota_cache.py: CachedQuota -/

/-- LOW_BALANCE_THRESHOLD from quota_cache.py. -/
def LOW_BALANCE_THRESHOLD : ℚ := 0.2

/-- Dataclass CachedQuota from quota_cache.py (floats as rationals). -/
structure CachedQuota where
  account_id : String
  usage_limit : ℚ := 0
  current_usage : ℚ := 0
  balance : ℚ := 0
  usage_percent : ℚ := 0
  balance_status : String := "normal"
  is_low_balance : Bool := false
  is_exhausted : Bool := false
  subscription_title : String := ""
  free_trial_limit : ℚ := 0
  free_trial_usage : ℚ := 0
  bonus_limit : ℚ := 0
  bonus_usage : ℚ := 0
  updated_at : ℚ := 0
  error : Option String := none
  deriving DecidableEq, Repr

/-- CachedQuota._update_balance_status: recompute the derived status fields.
With an error present the method returns without touching any field. -/
def CachedQuota.updateBalanceStatus (q : CachedQuota) : CachedQuota :=
  if q.error ≠ none then q
  else if q.balance ≤ 0 then
    { q with balance_status := "exhausted", is_exhausted := true, is_low_balance := false }
  else if 0 < q.usage_limit then
    if (q.balance / q.usage_limit) * 100 ≤ LOW_BALANCE_THRESHOLD * 100 then
      { q with balance_status := "low", is_low_balance := true, is_exhausted := false }
    else
      { q with balance_status := "normal", is_low_balance := false, is_exhausted := false }
  else
    { q with balance_status := "normal", is_low_balance := false, is_exhausted := false }

/-- UsageInfo as consumed by CachedQuota.from_usage_info. -/
structure UsageInfo where
  usage_limit : ℚ := 0
  current_usage : ℚ := 0
  balance : ℚ := 0
  is_low_balance : Bool := false
  subscription_title : String := ""
  free_trial_limit : ℚ := 0
  free_trial_usage : ℚ := 0
  bonus_limit : ℚ := 0
  bonus_usage : ℚ := 0
  deriving DecidableEq, Repr

/-- CachedQuota.from_usage_info (now is the time.time() result; the Python
round-to-2-decimals of usage_percent, a display detail, is kept exact). -/
def CachedQuota.fromUsageInfo (account_id : String) (u : UsageInfo) (now : ℚ) : CachedQuota :=
  let usage_percent := if 0 < u.usage_limit then u.current_usage / u.usage_limit * 100 else 0
  let q : CachedQuota :=
    { account_id := account_id
      usage_limit := u.usage_limit
      current_usage := u.current_usage
      balance := u.balance
      usage_percent := usage_percent
      is_low_balance := u.is_low_balance
      subscription_title := u.subscription_title
      free_trial_limit := u.free_trial_limit
      free_trial_usage := u.free_trial_usage
      bonus_limit := u.bonus_limit
      bonus_usage := u.bonus_usage
      updated_at := now
      error := none }
  -- __post_init__ and the explicit recompute both run _update_balance_status
  q.updateBalanceStatus

/-- CachedQuota.from_error: an error snapshot keeps the field defaults. -/
def CachedQuota.fromError (account_id : String) (error : String) (now : ℚ) : CachedQuota :=
  let q : CachedQuota := { account_id := account_id, updated_at := now, error := some error }
  -- __post_init__ runs _update_balance_status, which returns early on error
  q.updateBalanceStatus

/-- CachedQuota.has_error. -/
def CachedQuota.hasError (q : CachedQuota) : Bool :=
  q.error.isSome

/-- CachedQuota.is_available: not exhausted and no error. -/
def CachedQuota.isAvailableQ (q : CachedQuota) : Bool :=
  !q.is_exhausted && !q.hasError

/-! ## credential module collaborators (not under src/) -/

/-- Modelled from the spec: CooldownRecord (section 3); the credential module
holding QuotaManager is not part of the sources under study. -/
structure CooldownRecord where
  exceededAt : ℚ
  cooldownUntil : ℚ
  reason : String
  deriving DecidableEq, Repr

/-- Modelled from the spec: the QuotaManager cooldown table of section 4.B,
keyed by credential id. -/
def QuotaManagerState : Type := String → Option CooldownRecord

/-- Modelled from the spec: MarkExceeded inserts or overwrites a record with
cooldownUntil = now + cooldown (section 4.B). -/
def qmMarkExceeded (qm : QuotaManagerState) (id reason : String) (now cooldown : ℚ) :
    QuotaManagerState :=
  fun j => if j = id then some ⟨now, now + cooldown, reason⟩ else qm j

/-- Modelled from the spec: IsAvailable returns true if no record or if
now is at least cooldownUntil (section 4.B). -/
def qmIsAvailable (qm : QuotaManagerState) (id : String) (now : ℚ) : Bool :=
  match qm id with
  | none => true
  | some r => decide (r.cooldownUntil ≤ now)

/-- Modelled from the spec: the RateLimiter runtime config of section 4.C
(core/rate_limiter.py is not among the sources under study). -/
structure RateLimitConfig where
  enabled : Bool
  quota_cooldown_seconds : ℚ
  deriving DecidableEq, Repr

/-- Modelled from the spec: ShouldApplyQuotaCooldown; when enabled is false,
429s must not trigger QuotaManager cooldowns (section 4.C). -/
def shouldApplyQuotaCooldown (cfg : RateLimitConfig) : Bool :=
  cfg.enabled

/-! ## account.py: Account -/

/-- CredentialStatus values used by account.py. -/
inductive CredentialStatus where
  | active
  | cooldown
  | unhealthy
  | disabled
  | suspended
  deriving DecidableEq, Repr

/-- Dataclass Account from account.py (the cached credential and machine id,
unused by the verified operations, are omitted). -/
structure Account where
  id : String
  name : String := ""
  token_path : String := ""
  enabled : Bool := true
  request_count : ℕ := 0
  error_count : ℕ := 0
  last_used : Option ℚ := none
  status : CredentialStatus := .active
  deriving DecidableEq, Repr

/-- The process-wide state Account.is_available reads: the global quota cache,
the credential-module quota_manager table, and the current time. -/
structure Env where
  quotaCache : String → Option CachedQuota
  qm : QuotaManagerState
  now : ℚ

/-- Account.is_available from account.py. -/
def Account.isAvailable (env : Env) (a : Account) : Bool :=
  if !a.enabled then false
  else if a.status = .disabled || a.status = .unhealthy || a.status = .suspended then false
  else if !qmIsAvailable env.qm a.id env.now then false
  else
    match env.quotaCache a.id with
    | some q => if q.is_exhausted then false else true
    | none => true

/-- Account.mark_quota_exceeded from account.py: with the quota cooldown
applicable the account enters cooldown and a QuotaManager record is written;
otherwise only error_count is bumped. -/
def Account.markQuotaExceeded (cfg : RateLimitConfig) (qm : QuotaManagerState)
    (a : Account) (reason : String) (now : ℚ) : QuotaManagerState × Account :=
  if shouldApplyQuotaCooldown cfg then
    (qmMarkExceeded qm a.id reason now cfg.quota_cooldown_seconds,
     { a with status := .cooldown, error_count := a.error_count + 1 })
  else
    (qm, { a with error_count := a.error_count + 1 })

/-! ## account_selector.py: AccountSelector -/

/-- SelectionStrategy from account_selector.py. -/
inductive SelectionStrategy where
  | lowest_balance
  | round_robin
  | least_requests
  deriving DecidableEq, Repr

/-- The selector state guarded by its lock (the persistence file is not
modelled; saving does not change the in-memory state). -/
structure SelectorState where
  priority_accounts : List String
  strategy : SelectionStrategy := .lowest_balance
  round_robin_index : ℕ := 0
  deriving DecidableEq, Repr

/-- The nested priority walk in AccountSelector.select: for each priority id
in order, the first account in the input list with that id that is available
is returned. -/
def findPriority (env : Env) (accounts : List Account) : List String → Option Account
  | [] => none
  | p :: ps =>
    match accounts.find? (fun a => a.id == p && a.isAvailable env) with
    | some a => some a
    | none => findPriority env accounts ps

/-- The sort key of AccountSelector._select_lowest_balance: the cached balance
(missing snapshot or error snapshot count as plus infinity). -/
def balanceOf (env : Env) (a : Account) : WithTop ℚ :=
  match env.quotaCache a.id with
  | some q => if q.hasError then ⊤ else (q.balance : WithTop ℚ)
  | none => ⊤

/-- Strict comparison of the Python key tuples (balance, request_count). -/
def keyLt (env : Env) (x y : Account) : Prop :=
  balanceOf env x < balanceOf env y ∨
    (balanceOf env x = balanceOf env y ∧ x.request_count < y.request_count)

/-- Non-strict comparison of the Python key tuples (balance, request_count). -/
def keyLe (env : Env) (x y : Account) : Prop :=
  balanceOf env x < balanceOf env y ∨
    (balanceOf env x = balanceOf env y ∧ x.request_count ≤ y.request_count)

instance (env : Env) (x y : Account) : Decidable (keyLt env x y) := by
  unfold keyLt; infer_instance

instance (env : Env) (x y : Account) : Decidable (keyLe env x y) := by
  unfold keyLe; infer_instance

/-- Python min over a nonempty list keeps the first element whose key is
strictly smaller than the current best. -/
def pyMinFold (env : Env) (a : Account) (rest : List Account) : Account :=
  rest.foldl (fun best x => if keyLt env x best then x else best) a

/-- AccountSelector._select_lowest_balance. -/
def selectLowestBalance (env : Env) (accounts : List Account) : Option Account :=
  match accounts.filter (fun a => a.isAvailable env) with
  | [] => none
  | a :: rest => some (pyMinFold env a rest)

/-- AccountSelector._select_round_robin. -/
def selectRoundRobin (env : Env) (st : SelectorState) (accounts : List Account) :
    Option Account × SelectorState :=
  match accounts.filter (fun a => a.isAvailable env) with
  | [] => (none, st)
  | a :: rest =>
    let available := a :: rest
    let idx := st.round_robin_index % available.length
    (available.get? idx, { st with round_robin_index := idx + 1 })

/-- AccountSelector._select_least_requests. -/
def selectLeastRequests (env : Env) (accounts : List Account) : Option Account :=
  match accounts.filter (fun a => a.isAvailable env) with
  | [] => none
  | a :: rest =>
    some (rest.foldl (fun best x => if x.request_count < best.request_count then x else best) a)

/-- AccountSelector.select: empty input gives none; a non-empty priority list
is walked first; then the configured strategy runs over the available
accounts. -/
def AccountSelector.select (env : Env) (st : SelectorState) (accounts : List Account) :
    Option Account × SelectorState :=
  if accounts.isEmpty then (none, st)
  else
    match (if st.priority_accounts.isEmpty then none else findPriority env accounts st.priority_accounts) with
    | some a => (some a, st)
    | none =>
      match st.strategy with
      | .lowest_balance => (selectLowestBalance env accounts, st)
      | .round_robin => selectRoundRobin env st accounts
      | .least_requests => (selectLeastRequests env accounts, st)

/-- Python truthiness of the optional valid_account_ids argument: None and the
empty set are both falsy. -/
def truthySet : Option (List String) → Bool
  | none => false
  | some l => !l.isEmpty

/-- AccountSelector.add_priority_account; returns (success, message) and the
updated state, mutating nothing on failure. -/
def addPriorityAccount (st : SelectorState) (account_id : String) (position : Int)
    (valid_account_ids : Option (List String)) : (Bool × String) × SelectorState :=
  if truthySet valid_account_ids &&
      !((valid_account_ids.getD []).contains account_id) then
    ((false, "账号不存在: " ++ account_id), st)
  else if st.priority_accounts.contains account_id then
    ((false, "账号 " ++ account_id ++ " 已是优先账号"), st)
  else
    let prio :=
      if position < 0 || position ≥ (st.priority_accounts.length : Int) then
        st.priority_accounts ++ [account_id]
      else
        st.priority_accounts.take position.toNat ++
          account_id :: st.priority_accounts.drop position.toNat
    ((true, "已添加优先账号: " ++ account_id), { st with priority_accounts := prio })

/-! ## refresh_manager.py -/

/-- RefreshManager._is_rate_limit_error (on string errors). -/
def isRateLimitError (e : String) : Bool :=
  containsSub e "429" || containsSub (strLower e) "rate limit" || containsSub e "请求过于频繁"

/-- RefreshManager._is_auth_error (on string errors). -/
def isAuthError (e : String) : Bool :=
  containsSub e "401" || containsSub (strLower e) "unauthorized" ||
    containsSub e "凭证已过期" || containsSub e "需要重新登录"

/-- RefreshManager._get_rate_limit_delay: triple base delay. -/
def getRateLimitDelay (attempt : ℕ) (base_delay : ℚ) : ℚ :=
  base_delay * 3 * 2 ^ attempt

/-- Outcome of one call of an async operation passed to the retry and
auth-retry wrappers (in the sources the data is untyped; error payloads are
strings, which is what classification inspects). -/
inductive OpResult where
  | ok (data : String)
  | err (data : String)
  | exc (msg : String)
  | plain (data : String)
  deriving DecidableEq, Repr

/-- The error string an attempt leaves in last_error. -/
def OpResult.failMsg : OpResult → String
  | .ok d => d
  | .err d => d
  | .exc m => m
  | .plain d => d

/-- Is the outcome a failure (returned failure tuple or raised exception). -/
def OpResult.isFailure : OpResult → Bool
  | .err _ => true
  | .exc _ => true
  | _ => false

/-- Trace of RefreshManager.retry_with_backoff: final (success, result) plus
the number of calls made and the sleeps performed between attempts. -/
structure RetryTrace where
  success : Bool
  result : Option String
  calls : ℕ
  waits : List ℚ
  deriving DecidableEq, Repr

/-- The retry loop of retry_with_backoff; attempt counts up while remaining
counts down from retries + 1; a sleep is recorded only while attempt is below
retries.  On a returned failure the delay is classified; on an exception the
plain exponential delay is used. -/
def retryLoop (op : ℕ → OpResult) (base_delay : ℚ) (retries : ℕ) :
    ℕ → ℕ → Option String → List ℚ → ℕ → RetryTrace
  | _, 0, lastError, waits, calls => ⟨false, lastError, calls, waits.reverse⟩
  | attempt, remaining + 1, _, waits, calls =>
    match op attempt with
    | .ok d => ⟨true, some d, calls + 1, waits.reverse⟩
    | .plain d => ⟨true, some d, calls + 1, waits.reverse⟩
    | .err d =>
      let delay :=
        if isRateLimitError d then getRateLimitDelay attempt base_delay
        else base_delay * 2 ^ attempt
      retryLoop op base_delay retries (attempt + 1) remaining (some d)
        (if attempt < retries then delay :: waits else waits) (calls + 1)
    | .exc m =>
      let delay := base_delay * 2 ^ attempt
      retryLoop op base_delay retries (attempt + 1) remaining (some m)
        (if attempt < retries then delay :: waits else waits) (calls + 1)

/-- RefreshManager.retry_with_backoff with max_retries = retries. -/
def retryWithBackoff (op : ℕ → OpResult) (retries : ℕ) (base_delay : ℚ) : RetryTrace :=
  retryLoop op base_delay retries 0 (retries + 1) none [] 0

/-- Trace of RefreshManager.execute_with_auth_retry: final (success, result)
plus how many times the op and account.refresh_token were invoked. -/
structure AuthRetryTrace where
  success : Bool
  result : String
  opCalls : ℕ
  refreshCalls : ℕ
  deriving DecidableEq, Repr

/-- The except-branch of execute_with_auth_retry, reached when a call raised:
a 401-classified exception triggers one refresh and, on refresh success, one
guarded retry of the op. -/
def authRetryOnException (op : ℕ → OpResult) (refresh : ℕ → Bool × String)
    (e : String) (opIdx refreshIdx ops refreshes : ℕ) : AuthRetryTrace :=
  if isAuthError e then
    let r := refresh refreshIdx
    if r.1 then
      match op opIdx with
      | .ok d => ⟨true, d, ops + 1, refreshes + 1⟩
      | .err d => ⟨false, d, ops + 1, refreshes + 1⟩
      | .plain d => ⟨true, d, ops + 1, refreshes + 1⟩
      | .exc m => ⟨false, "重试失败: " ++ m, ops + 1, refreshes + 1⟩
    else ⟨false, "Token 刷新失败: " ++ r.2, ops, refreshes + 1⟩
  else ⟨false, e, ops, refreshes⟩

/-- RefreshManager.execute_with_auth_retry.  The first op call is index 0.
A retry performed after a returned 401 tuple still sits inside the outer try,
so an exception it raises falls through to the exception handler (which may
refresh a second time); a retry performed inside the exception handler has its
own try and never refreshes again. -/
def executeWithAuthRetry (op : ℕ → OpResult) (refresh : ℕ → Bool × String) : AuthRetryTrace :=
  match op 0 with
  | .ok d => ⟨true, d, 1, 0⟩
  | .plain d => ⟨true, d, 1, 0⟩
  | .err d =>
    if isAuthError d then
      let r := refresh 0
      if r.1 then
        match op 1 with
        | .ok d2 => ⟨true, d2, 2, 1⟩
        | .err d2 => ⟨false, d2, 2, 1⟩
        | .plain d2 => ⟨true, d2, 2, 1⟩
        | .exc m2 => authRetryOnException op refresh m2 2 1 2 1
      else ⟨false, "Token 刷新失败: " ++ r.2, 1, 1⟩
    else ⟨false, d, 1, 0⟩
  | .exc m => authRetryOnException op refresh m 1 0 1 0

/-- Dataclass RefreshProgress from refresh_manager.py. -/
structure RefreshProgress where
  total : ℕ := 0
  completed : ℕ := 0
  success : ℕ := 0
  failed : ℕ := 0
  current_account : Option String := none
  status : String := "running"
  started_at : ℚ := 0
  message : Option String := none
  deriving DecidableEq, Repr

/-- The RefreshManager state the batch path touches: the asyncio lock used as
the global refresh lock, the _is_refreshing flag, the progress object and the
last refresh time. -/
structure ManagerState where
  lockHeld : Bool := false
  is_refreshing : Bool := false
  progress : Option RefreshProgress := none
  last_refresh_time : Option ℚ := none
  deriving DecidableEq, Repr

/-- RefreshManager.acquire_refresh_lock: false if held, else take it. -/
def acquireRefreshLock (s : ManagerState) : Bool × ManagerState :=
  if s.lockHeld then (false, s) else (true, { s with lockHeld := true })

/-- RefreshManager.release_refresh_lock (idempotent). -/
def releaseRefreshLock (s : ManagerState) : ManagerState :=
  { s with lockHeld := false }

/-- RefreshManager.is_refreshing. -/
def isRefreshing (s : ManagerState) : Bool :=
  s.is_refreshing

/-- RefreshManager._start_refresh. -/
def startRefresh (s : ManagerState) (total : ℕ) (now : ℚ) (message : String) : ManagerState :=
  { s with
    is_refreshing := true
    progress := some
      { total := total, completed := 0, success := 0, failed := 0,
        current_account := none, status := "running", started_at := now,
        message := some message } }

/-- RefreshManager._update_progress. -/
def updateProgress (s : ManagerState) (current_account : Option String)
    (succeeded failed : Bool) (message : Option String) : ManagerState :=
  match s.progress with
  | none => s
  | some p =>
    let p := match current_account with
      | some c => { p with current_account := some c }
      | none => p
    let p :=
      if succeeded then { p with success := p.success + 1, completed := p.completed + 1 }
      else if failed then { p with failed := p.failed + 1, completed := p.completed + 1 }
      else p
    let p := match message with
      | some m => { p with message := some m }
      | none => p
    { s with progress := some p }

/-- RefreshManager._finish_refresh. -/
def finishRefresh (s : ManagerState) (status : String) (message : Option String)
    (now : ℚ) : ManagerState :=
  let s := { s with is_refreshing := false, last_refresh_time := some now }
  match s.progress with
  | none => s
  | some p =>
    let p := { p with status := status, current_account := none }
    let p :=
      match message with
      | some m => { p with message := some m }
      | none =>
        if status = "completed" then
          { p with message := some ("刷新完成: 成功 " ++ toString p.success ++
              ", 失败 " ++ toString p.failed) }
        else p
    { s with progress := some p }

/-- The account filter at the top of refresh_all_with_token. -/
def filterAccounts (skip_disabled skip_error : Bool) (accounts : List Account) : List Account :=
  accounts.filter (fun a =>
    !(skip_disabled && !a.enabled) &&
      !(skip_error && (a.status = .unhealthy || a.status = .suspended)))

/-- The per-account body refresh_one, sequenced (the semaphore bounds
parallelism; the progress counters are the same in any interleaving).
outcome gives the retried result of refresh_account_with_token per account. -/
def processAccounts (outcome : Account → Bool) : List Account → ManagerState → ManagerState
  | [], s => s
  | a :: rest, s =>
    let s := updateProgress s (some a.id) false false (some ("正在刷新: " ++ a.name))
    let s :=
      if outcome a then updateProgress s none true false none
      else updateProgress s none false true none
    processAccounts outcome rest s

/-- RefreshManager.refresh_all_with_token.  Per-account failures are swallowed
by gather(return_exceptions=True); batchExc models an unexpected exception in
the batch scaffolding itself, which the except-branch turns into an error
finish.  The finally-branch releases the lock on every path past acquisition. -/
def refreshAllWithToken (s : ManagerState) (accounts : List Account)
    (outcome : Account → Bool) (skip_disabled skip_error : Bool)
    (batchExc : Option String) (now : ℚ) : Option RefreshProgress × ManagerState :=
  if s.lockHeld then
    match s.progress with
    | some p => (some p, s)
    | none =>
      (some { total := 0, status := "error", started_at := now,
              message := some "刷新操作正在进行中" }, s)
  else
    let s := { s with lockHeld := true }
    let toRefresh := filterAccounts skip_disabled skip_error accounts
    let total := toRefresh.length
    let s := startRefresh s total now ("开始刷新 " ++ toString total ++ " 个账号")
    match batchExc with
    | some e =>
      let s := finishRefresh s "error" (some ("刷新异常: " ++ e)) now
      (s.progress, releaseRefreshLock s)
    | none =>
      if total = 0 then
        let s := finishRefresh s "completed" (some "没有需要刷新的账号") now
        (s.progress, releaseRefreshLock s)
      else
        let s := processAccounts outcome toRefresh s
        let s := finishRefresh s "completed" none now
        (s.progress, releaseRefreshLock s)

/-! ## quota_scheduler.py -/

/-- Outcome of the awaited get_account_usage(account) call. -/
inductive FetchResult where
  | ok (info : UsageInfo)
  | err (msg : String)
  | exc (msg : String)
  deriving DecidableEq, Repr

/-- QuotaCache.set on the in-memory map. -/
def cacheSet (cache : String → Option CachedQuota) (id : String) (q : CachedQuota) :
    String → Option CachedQuota :=
  fun j => if j = id then some q else cache j

/-- QuotaScheduler._refresh_account_internal: on success the snapshot is
cached and the account is disabled when exhausted and enabled otherwise; on
failure an error snapshot is cached and the account is untouched. -/
def refreshAccountInternal (acc : Account) (cache : String → Option CachedQuota)
    (now : ℚ) (r : FetchResult) :
    Account × (String → Option CachedQuota) × Bool :=
  match r with
  | .ok info =>
    let quota := CachedQuota.fromUsageInfo acc.id info now
    let cache := cacheSet cache acc.id quota
    let acc :=
      if quota.is_exhausted then
        if acc.enabled then { acc with enabled := false } else acc
      else
        if !acc.enabled then { acc with enabled := true } else acc
    (acc, cache, true)
  | .err m =>
    (acc, cacheSet cache acc.id (CachedQuota.fromError acc.id m now), false)
  | .exc m =>
    (acc, cacheSet cache acc.id (CachedQuota.fromError acc.id m now), false)

/-! ## history_manager.py

History entries are arbitrary JSON dictionaries in the sources; they are
modelled by a mutual inductive JSON type, and the length computations embed
json.dumps with ensure_ascii=False and the default separators. -/

mutual

inductive Json where
  | str (s : String)
  | num (n : Int)
  | bool (b : Bool)
  | null
  | arr (elems : JsonList)
  | obj (fields : JsonFields)

inductive JsonList where
  | nil
  | cons (hd : Json) (tl : JsonList)

inductive JsonFields where
  | nil
  | cons (key : String) (val : Json) (tl : JsonFields)

end

/-- Lower-case hexadecimal digit. -/
def hexDigitChar (n : ℕ) : Char :=
  if n < 10 then Char.ofNat (48 + n) else Char.ofNat (87 + n)

/-- The escape json.dumps applies to one character (ensure_ascii=False). -/
def jsonEscapeChar (c : Char) : List Char :=
  if c = '"' then ['\\', '"']
  else if c = '\\' then ['\\', '\\']
  else if c = '\n' then ['\\', 'n']
  else if c = '\t' then ['\\', 't']
  else if c = '\r' then ['\\', 'r']
  else if c = '\x08' then ['\\', 'b']
  else if c = '\x0c' then ['\\', 'f']
  else if c.toNat < 32 then
    ['\\', 'u', '0', '0', hexDigitChar (c.toNat / 16), hexDigitChar (c.toNat % 16)]
  else [c]

/-- Escape a character list for a JSON string body. -/
def jsonEscapeList (cs : List Char) : List Char :=
  (cs.map jsonEscapeChar).flatten

/-- json.dumps of a string value. -/
def jsonDumpString (s : String) : String :=
  ⟨'"' :: (jsonEscapeList s.data ++ ['"'])⟩

mutual

/-- json.dumps with ensure_ascii=False and default separators. -/
def jsonDumps : Json → String
  | .str s => jsonDumpString s
  | .num n => toString n
  | .bool b => if b then "true" else "false"
  | .null => "null"
  | .arr xs => "[" ++ jsonDumpsList xs ++ "]"
  | .obj fs => "\x7b" ++ jsonDumpsFields fs ++ "\x7d"

/-- Comma-joined dumps of array elements. -/
def jsonDumpsList : JsonList → String
  | .nil => ""
  | .cons x .nil => jsonDumps x
  | .cons x (JsonList.cons y tl) =>
    jsonDumps x ++ ", " ++ jsonDumpsList (JsonList.cons y tl)

/-- Comma-joined dumps of object entries. -/
def jsonDumpsFields : JsonFields → String
  | .nil => ""
  | .cons k v .nil => jsonDumpString k ++ ": " ++ jsonDumps v
  | .cons k v (JsonFields.cons k2 v2 tl) =>
    jsonDumpString k ++ ": " ++ jsonDumps v ++ ", " ++
      jsonDumpsFields (JsonFields.cons k2 v2 tl)

end

/-- Convert a Lean list of values into a JSON array payload. -/
def JsonList.ofList : List Json → JsonList
  | [] => .nil
  | x :: xs => .cons x (JsonList.ofList xs)

/-- json.dumps of a history (a Python list of messages). -/
def histDumps (h : List Json) : String :=
  jsonDumps (Json.arr (JsonList.ofList h))

/-- Dictionary lookup (dict.get). -/
def JsonFields.get? : JsonFields → String → Option Json
  | .nil, _ => none
  | .cons k v tl, key => if k = key then some v else JsonFields.get? tl key

/-- Dictionary removal (dict.pop with default None). -/
def JsonFields.erase : JsonFields → String → JsonFields
  | .nil, _ => .nil
  | .cons k v tl, key =>
    if k = key then JsonFields.erase tl key else .cons k v (JsonFields.erase tl key)

/-- Dictionary assignment, keeping insertion order. -/
def JsonFields.set : JsonFields → String → Json → JsonFields
  | .nil, key, v => .cons key v .nil
  | .cons k w tl, key, v =>
    if k = key then .cons k v tl else .cons k w (JsonFields.set tl key v)

/-- Python dict truthiness: empty dictionaries are falsy. -/
def JsonFields.isEmpty : JsonFields → Bool
  | .nil => true
  | .cons _ _ _ => false

/-- Key lookup on a JSON value that may be an object. -/
def Json.getKey? (j : Json) (key : String) : Option Json :=
  match j with
  | .obj fs => fs.get? key
  | _ => none

/-- Python key in msg membership test. -/
def Json.hasKey (j : Json) (key : String) : Bool :=
  (j.getKey? key).isSome

/-- MIN_KEEP_MESSAGES from history_manager.py. -/
def MIN_KEEP_MESSAGES : ℕ := 6

/-- MAX_KEEP_MESSAGES from history_manager.py. -/
def MAX_KEEP_MESSAGES : ℕ := 20

/-- SUMMARY_MAX_LENGTH from history_manager.py. -/
def SUMMARY_MAX_LENGTH : ℕ := 3000

/-- AUTO_COMPRESS_THRESHOLD from history_manager.py. -/
def AUTO_COMPRESS_THRESHOLD : ℕ := 120000

/-- SAFE_CHAR_LIMIT from history_manager.py. -/
def SAFE_CHAR_LIMIT : ℕ := 100000

/-- The backward accumulation loop of _calculate_keep_count over the reversed
history. -/
def keepLoop (target : ℕ) : List Json → ℕ → ℕ → ℕ
  | [], _, count => count
  | m :: rest, total, count =>
    let mc := (jsonDumps m).length
    if total + mc > target ∧ count ≥ MIN_KEEP_MESSAGES then count
    else
      let count := count + 1
      if count ≥ MAX_KEEP_MESSAGES then count
      else keepLoop target rest (total + mc) count

/-- HistoryManager._calculate_keep_count. -/
def calculateKeepCount (history : List Json) (target_chars : ℕ) : ℕ :=
  if history.isEmpty then 0
  else
    max MIN_KEEP_MESSAGES
      (min (keepLoop target_chars history.reverse 0 0) (history.length - 1))

/-- Truthy toolUseId entries of an assistantResponseMessage toolUses list. -/
def toolIdsOfUses : JsonList → List String
  | .nil => []
  | .cons tu tl =>
    (match tu.getKey? "toolUseId" with
     | some (.str s) => if s = "" then [] else [s]
     | _ => []) ++ toolIdsOfUses tl

/-- The tool_use_ids set collected by _build_compressed_history. -/
def collectToolUseIds : List Json → List String
  | [] => []
  | m :: rest =>
    (match m.getKey? "assistantResponseMessage" with
     | some arm =>
       match arm.getKey? "toolUses" with
       | some (.arr uses) => toolIdsOfUses uses
       | _ => []
     | none => []) ++ collectToolUseIds rest

/-- Drop the userInputMessageContext of the first message when it is a user
message. -/
def stripFirstUserContext : List Json → List Json
  | [] => []
  | m :: rest =>
    match m with
    | .obj fs =>
      match fs.get? "userInputMessage" with
      | some (.obj uim) =>
        Json.obj (fs.set "userInputMessage" (.obj (uim.erase "userInputMessageContext"))) :: rest
      | _ => Json.obj fs :: rest
    | _ => m :: rest

/-- Keep the toolResults entries whose toolUseId is among the collected ids. -/
def filterResults (ids : List String) : JsonList → JsonList
  | .nil => .nil
  | .cons r tl =>
    let keep :=
      match r.getKey? "toolUseId" with
      | some (.str s) => ids.contains s
      | _ => false
    if keep then JsonList.cons r (filterResults ids tl) else filterResults ids tl

/-- The per-message body of the orphan toolResults filter (ids nonempty). -/
def sanitizeUserMsg (ids : List String) (m : Json) : Json :=
  match m with
  | .obj fs =>
    match fs.get? "userInputMessage" with
    | some (.obj uim) =>
      match uim.get? "userInputMessageContext" with
      | some (.obj ctx) =>
        match ctx.get? "toolResults" with
        | some (.arr (JsonList.cons r0 rs0)) =>
          let filtered := filterResults ids (JsonList.cons r0 rs0)
          let ctx :=
            match filtered with
            | .nil => ctx.erase "toolResults"
            | _ => ctx.set "toolResults" (.arr filtered)
          let uim :=
            if ctx.isEmpty then uim.erase "userInputMessageContext"
            else uim.set "userInputMessageContext" (.obj ctx)
          Json.obj (fs.set "userInputMessage" (.obj uim))
        | _ => Json.obj fs
      | _ => Json.obj fs
    | _ => Json.obj fs
  | _ => m

/-- The else-branch: drop every userInputMessageContext (ids empty). -/
def popContext (m : Json) : Json :=
  match m with
  | .obj fs =>
    match fs.get? "userInputMessage" with
    | some (.obj uim) =>
      Json.obj (fs.set "userInputMessage" (.obj (uim.erase "userInputMessageContext")))
    | _ => Json.obj fs
  | _ => m

/-- The backward model_id scan of _build_compressed_history over the reversed
recent history. -/
def findModelId : List Json → String
  | [] => "claude-sonnet-4"
  | m :: rest =>
    match m.getKey? "userInputMessage" with
    | some uim =>
      (match uim.getKey? "modelId" with
       | some (.str s) => s
       | _ => "claude-sonnet-4")
    | none =>
      match m.getKey? "assistantResponseMessage" with
      | some arm =>
        (match arm.getKey? "modelId" with
         | some (.str s) => s
         | _ => "claude-sonnet-4")
      | none => findModelId rest

/-- HistoryManager._build_compressed_history. -/
def buildCompressedHistory (summary : String) (recent0 : List Json) : List Json :=
  let recent :=
    match recent0 with
    | m :: rest => if m.hasKey "assistantResponseMessage" then rest else recent0
    | [] => []
  let ids := collectToolUseIds recent
  let recent := stripFirstUserContext recent
  let recent :=
    if ids.isEmpty then recent.map popContext else recent.map (sanitizeUserMsg ids)
  let model_id := findModelId recent.reverse
  let is_kiro :=
    recent.any (fun m => m.hasKey "userInputMessage" || m.hasKey "assistantResponseMessage")
  let content :=
    "[Earlier conversation summary]\n" ++ summary ++ "\n\n[Continuing from recent context...]"
  let preamble :=
    if is_kiro then
      [Json.obj (.cons "userInputMessage"
          (.obj (.cons "content" (.str content)
            (.cons "modelId" (.str model_id)
              (.cons "origin" (.str "AI_EDITOR") .nil)))) .nil),
       Json.obj (.cons "assistantResponseMessage"
          (.obj (.cons "content"
            (.str "I understand the context from the summary. Let's continue.") .nil)) .nil)]
    else
      [Json.obj (.cons "role" (.str "user") (.cons "content" (.str content) .nil)),
       Json.obj (.cons "role" (.str "assistant")
         (.cons "content"
           (.str "I understand the context from the summary. Let's continue.") .nil))]
  preamble ++ recent

/-- HistoryManager._hash_history. -/
def hashHistory (h : List Json) : String :=
  toString h.length ++ ":" ++ toString (histDumps h).length

/-- Texts extracted from a content list by _extract_text. -/
def textsOf : JsonList → List String
  | .nil => []
  | .cons item tl =>
    (match item with
     | .obj fs =>
       (match fs.get? "type", fs.get? "text" with
        | some (.str "text"), some (.str t) => [t]
        | some (.str "text"), _ => [""]
        | _, _ => [])
     | .str s => [s]
     | _ => []) ++ textsOf tl

/-- Newline join. -/
def joinNl : List String → String
  | [] => ""
  | [x] => x
  | x :: y :: tl => x ++ "\n" ++ joinNl (y :: tl)

/-- HistoryManager._extract_text (Python truthiness of the fallbacks kept). -/
def extractText (j : Json) : String :=
  match j with
  | .str s => s
  | .arr items => joinNl (textsOf items)
  | .obj fs =>
    let t := match fs.get? "text" with | some (.str s) => s | _ => ""
    if t ≠ "" then t
    else match fs.get? "content" with | some (.str s) => s | _ => ""
  | .null => ""
  | .num n => if n = 0 then "" else toString n
  | .bool b => if b then "True" else ""

/-- Python string slice s[:n]. -/
def strTake (s : String) (n : ℕ) : String :=
  ⟨s.data.take n⟩

/-- One line of _format_for_summary. -/
def formatLine (m : Json) : String :=
  let rc : String × String :=
    match m.getKey? "userInputMessage" with
    | some uim =>
      ("user", match uim.getKey? "content" with | some (.str s) => s | _ => "")
    | none =>
      match m.getKey? "assistantResponseMessage" with
      | some arm =>
        ("assistant", match arm.getKey? "content" with | some (.str s) => s | _ => "")
      | none =>
        ((match m.getKey? "role" with | some (.str s) => s | _ => "unknown"),
         extractText ((m.getKey? "content").getD (.str "")))
  let content := if rc.2.length > 800 then strTake rc.2 800 ++ "..." else rc.2
  "[" ++ rc.1 ++ "]: " ++ content

/-- HistoryManager._format_for_summary. -/
def formatForSummary (history : List Json) : String :=
  joinNl (history.map formatLine)

/-- HistoryManager._generate_summary; api models the awaited api_caller and
returns none when the call raised. -/
def generateSummary (api : String → Option String) (history : List Json) : Option String :=
  if history.isEmpty then none
  else
    let formatted := formatForSummary history
    let formatted :=
      if formatted.length > 15000 then strTake formatted 15000 ++ "\n...(truncated)"
      else formatted
    let prompt :=
      "请简洁总结以下对话的关键信息：\n1. 用户的主要目标\n2. 已完成的重要操作和决策\n" ++
      "3. 当前工作状态和关键上下文\n\n对话历史：\n" ++ formatted ++
      "\n\n请用中文输出摘要，控制在 " ++ toString SUMMARY_MAX_LENGTH ++
      " 字符以内，重点保留对后续对话有用的信息："
    match api prompt with
    | none => none
    | some summary =>
      if summary ≠ "" ∧ summary.length > SUMMARY_MAX_LENGTH then
        some (strTake summary SUMMARY_MAX_LENGTH ++ "...")
      else some summary

/-- The truncation bookkeeping of HistoryManager. -/
structure CompressState where
  truncated : Bool := false
  truncate_info : String := ""
  deriving DecidableEq, Repr

/-- Python int() applied to a nonnegative float. -/
def pyIntFloor (q : ℚ) : ℕ :=
  (⌊q⌋).toNat

/-- The number of recent messages smart_compress keeps: the calculated keep
count under the retry-adjusted target, forced below the history length. -/
def smartCompressKeep (history : List Json) (target_chars retry_level : ℕ) : ℕ :=
  let adjusted_target := pyIntFloor ((target_chars : ℚ) * (0.8 : ℚ) ^ retry_level)
  let keep_count := calculateKeepCount history adjusted_target
  if keep_count ≥ history.length then max MIN_KEEP_MESSAGES (history.length - 2)
  else keep_count

/-- The summary phase of smart_compress, entered when the old segment is
non-empty: summary-cache lookup, fresh summary, or plain-truncation
fallback. -/
def smartCompressRest (summary_cache_enabled : Bool) (cacheKey : Option String)
    (cacheGet : String → String → Option String) (api : String → Option String)
    (history old_history recent_history : List Json) (keep_count : ℕ) :
    List Json × CompressState :=
  let fullKey := cacheKey.map (fun k => k ++ ":" ++ toString keep_count)
  let old_hash := hashHistory old_history
  let cached :=
    match fullKey with
    | some k => if summary_cache_enabled then cacheGet k old_hash else none
    | none => none
  match cached with
  | some cs =>
    let result := buildCompressedHistory cs recent_history
    (result,
     { truncated := true,
       truncate_info := "智能压缩(缓存): " ++ toString history.length ++ " -> " ++
         toString result.length ++ " 条消息" })
  | none =>
    match generateSummary api old_history with
    | some summary =>
      if summary = "" then
        (recent_history,
         { truncated := true,
           truncate_info := "摘要失败，保留最近 " ++ toString recent_history.length ++
             " 条消息" })
      else
        let result := buildCompressedHistory summary recent_history
        (result,
         { truncated := true,
           truncate_info := "智能压缩: " ++ toString history.length ++ " -> " ++
             toString result.length ++ " 条消息 (摘要 " ++ toString summary.length ++
             " 字符)" })
    | none =>
      (recent_history,
       { truncated := true,
         truncate_info := "摘要失败，保留最近 " ++ toString recent_history.length ++
           " 条消息" })

/-- HistoryManager.smart_compress.  cacheGet models the _summary_cache.get
lookup (key and old-history hash; age checking is inside the oracle); the
cache write after a fresh summary has no observable effect on the result and
is not carried in the state. -/
def smartCompress (summary_cache_enabled : Bool) (cacheKey : Option String)
    (cacheGet : String → String → Option String) (api : String → Option String)
    (st : CompressState) (history : List Json) (target_chars : ℕ) (retry_level : ℕ) :
    List Json × CompressState :=
  if history.isEmpty then (history, st)
  else
    let current_chars := (histDumps history).length
    if current_chars ≤ target_chars then (history, st)
    else
      let keep_count := smartCompressKeep history target_chars retry_level
      let old_history :=
        if keep_count < history.length then history.take (history.length - keep_count) else []
      let recent_history :=
        if 0 < keep_count then history.drop (history.length - keep_count) else history
      if old_history.isEmpty then (recent_history, st)
      else
        smartCompressRest summary_cache_enabled cacheKey cacheGet api
          history old_history recent_history keep_count

/-! ## Theorems -/

/-- C2: for a snapshot with a positive usage limit and no error, the
recomputed status is exhausted (and the quota unavailable) when the balance is
nonpositive, low (and available) when the remaining fraction is at most 0.20,
and normal (and available) otherwise; with an error set the recompute leaves
every field untouched, and an error snapshot carries the default status
normal. -/
theorem C2_balance_classification (q : CachedQuota) (hne : q.error = none)
    (hlim : 0 < q.usage_limit) :
    (q.balance ≤ 0 →
      q.updateBalanceStatus.balance_status = "exhausted" ∧
      q.updateBalanceStatus.is_exhausted = true ∧
      q.updateBalanceStatus.isAvailableQ = false) ∧
    (0 < q.balance → q.balance / q.usage_limit ≤ 0.2 →
      q.updateBalanceStatus.balance_status = "low" ∧
      q.updateBalanceStatus.is_low_balance = true ∧
      q.updateBalanceStatus.isAvailableQ = true) ∧
    (0 < q.balance → ¬(q.balance / q.usage_limit ≤ 0.2) →
      q.updateBalanceStatus.balance_status = "normal" ∧
      q.updateBalanceStatus.isAvailableQ = true) ∧
    (∀ q2 : CachedQuota, q2.error ≠ none → q2.updateBalanceStatus = q2) ∧
    (∀ id err now, (CachedQuota.fromError id err now).balance_status = "normal") := by
  have hthr : ∀ x : ℚ, (x * 100 ≤ LOW_BALANCE_THRESHOLD * 100 ↔ x ≤ 0.2) := by
    intro x
    rw [mul_le_mul_right (show (0 : ℚ) < 100 by norm_num)]
    norm_num [LOW_BALANCE_THRESHOLD]
  refine ⟨?_, ?_, ?_, ?_, ?_⟩
  · intro hb
    simp [CachedQuota.updateBalanceStatus, hne, hb, CachedQuota.isAvailableQ,
      CachedQuota.hasError]
  · intro hb hfrac
    have hb' : ¬ q.balance ≤ 0 := not_le.mpr hb
    simp [CachedQuota.updateBalanceStatus, hne, hb', hlim, (hthr _).mpr hfrac,
      CachedQuota.isAvailableQ, CachedQuota.hasError]
  · intro hb hfrac
    have hb' : ¬ q.balance ≤ 0 := not_le.mpr hb
    have hfrac' : ¬ (q.balance / q.usage_limit * 100 ≤ LOW_BALANCE_THRESHOLD * 100) := by
      intro hx
      exact hfrac ((hthr _).mp hx)
    simp [CachedQuota.updateBalanceStatus, hne, hb', hlim, hfrac',
      CachedQuota.isAvailableQ, CachedQuota.hasError]
  · intro q2 h2
    simp [CachedQuota.updateBalanceStatus, h2]
  · intro id err now
    simp [CachedQuota.fromError, CachedQuota.updateBalanceStatus]

/-- Witness for C2 at a concrete low-balance snapshot (limit 100, balance 15,
no error). -/
theorem C2_balance_classification_witness :
    (CachedQuota.updateBalanceStatus
      { account_id := "w", usage_limit := 100, balance := 15 }).balance_status = "low" ∧
    (CachedQuota.updateBalanceStatus
      { account_id := "w", usage_limit := 100, balance := 15 }).is_low_balance = true ∧
    (CachedQuota.updateBalanceStatus
      { account_id := "w", usage_limit := 100, balance := 15 }).isAvailableQ = true :=
  ((C2_balance_classification
      { account_id := "w", usage_limit := 100, balance := 15 } rfl (by norm_num)).2.1
    (by norm_num) (by norm_num))

/-- C7: with rate limiting disabled, mark_quota_exceeded leaves the
QuotaManager table untouched, changes the account only by bumping
error_count, and the account availability (in any environment) is exactly
what it was before.  The RateLimiter and QuotaManager collaborators are
modelled from the spec. -/
theorem C7_429_without_rate_limiting (cfg : RateLimitConfig) (qm : QuotaManagerState)
    (acc : Account) (reason : String) (now : ℚ) (h : cfg.enabled = false) :
    (Account.markQuotaExceeded cfg qm acc reason now).1 = qm ∧
    (Account.markQuotaExceeded cfg qm acc reason now).2 =
      { acc with error_count := acc.error_count + 1 } ∧
    ∀ env : Env,
      (Account.markQuotaExceeded cfg qm acc reason now).2.isAvailable env =
        acc.isAvailable env := by
  refine ⟨?_, ?_, ?_⟩
  · simp [Account.markQuotaExceeded, shouldApplyQuotaCooldown, h]
  · simp [Account.markQuotaExceeded, shouldApplyQuotaCooldown, h]
  · intro env
    simp [Account.markQuotaExceeded, shouldApplyQuotaCooldown, h, Account.isAvailable]

/-- Witness for C7 at a concrete disabled rate limiter and healthy account. -/
theorem C7_429_without_rate_limiting_witness :
    (Account.markQuotaExceeded ⟨false, 30⟩ (fun _ => none)
        { id := "a", error_count := 4 } "Rate limited" 10).1 = (fun _ => none) ∧
    (Account.markQuotaExceeded ⟨false, 30⟩ (fun _ => none)
        { id := "a", error_count := 4 } "Rate limited" 10).2 =
      { id := "a", error_count := 5 } ∧
    ∀ env : Env,
      (Account.markQuotaExceeded ⟨false, 30⟩ (fun _ => none)
          { id := "a", error_count := 4 } "Rate limited" 10).2.isAvailable env =
        Account.isAvailable env { id := "a", error_count := 4 } :=
  C7_429_without_rate_limiting ⟨false, 30⟩ (fun _ => none)
    { id := "a", error_count := 4 } "Rate limited" 10 rfl

/-- Counterexample to C9 as stated: with an empty valid-id set (which is
falsy, so the membership check is skipped) the addition succeeds although the
id is not a member of the set. -/
theorem C9_counterexample :
    ((addPriorityAccount ⟨[], .lowest_balance, 0⟩ "a" (-1) (some [])).1.1 = true) ∧
    "a" ∉ ([] : List String) := by
  constructor
  · rfl
  · simp

/-- C9 amended: add_priority_account succeeds iff the id is not already in
the priority list and, whenever the supplied valid-id collection is truthy
(given and non-empty), the id is a member of it; on failure the selector
state is unchanged. -/
theorem C9_add_priority_validation (st : SelectorState) (id : String) (pos : Int)
    (valid : Option (List String)) :
    ((addPriorityAccount st id pos valid).1.1 = true ↔
      (st.priority_accounts.contains id = false ∧
        (truthySet valid = true → (valid.getD []).contains id = true))) ∧
    ((addPriorityAccount st id pos valid).1.1 = false →
      (addPriorityAccount st id pos valid).2 = st) := by
  have e1 : (truthySet valid && !((valid.getD []).contains id)) = true →
      addPriorityAccount st id pos valid = ((false, "账号不存在: " ++ id), st) := by
    intro c1
    unfold addPriorityAccount
    rw [if_pos c1]
  have e2 : (truthySet valid && !((valid.getD []).contains id)) = false →
      st.priority_accounts.contains id = true →
      addPriorityAccount st id pos valid = ((false, "账号 " ++ id ++ " 已是优先账号"), st) := by
    intro c1 c2
    unfold addPriorityAccount
    rw [c1]
    rw [if_neg (by simp), if_pos c2]
  have e3 : (truthySet valid && !((valid.getD []).contains id)) = false →
      st.priority_accounts.contains id = false →
      (addPriorityAccount st id pos valid).1 = (true, "已添加优先账号: " ++ id) := by
    intro c1 c2
    unfold addPriorityAccount
    rw [c1, c2]
    rw [if_neg (by simp), if_neg (by simp)]
  cases hb1 : (truthySet valid && !((valid.getD []).contains id)) with
  | true =>
    rw [e1 hb1]
    have hmem : ((valid.getD []).contains id) = false := by
      revert hb1
      cases (valid.getD []).contains id <;> simp
    have htru : truthySet valid = true := by
      revert hb1
      cases truthySet valid <;> simp
    refine ⟨iff_of_false (by simp) ?_, fun _ => rfl⟩
    rintro ⟨_, himp⟩
    have hx := himp htru
    rw [hmem] at hx
    exact absurd hx (by simp)
  | false =>
    cases hb2 : st.priority_accounts.contains id with
    | true =>
      rw [e2 hb1 hb2]
      refine ⟨iff_of_false (by simp) ?_, fun _ => rfl⟩
      rintro ⟨hnm, _⟩
      exact absurd hnm (by simp)
    | false =>
      have h3 := e3 hb1 hb2
      constructor
      · rw [h3]
        refine iff_of_true rfl ⟨rfl, ?_⟩
        intro ht
        rw [ht] at hb1
        revert hb1
        cases (valid.getD []).contains id <;> simp
      · intro habs
        rw [h3] at habs
        exact absurd habs (by simp)

/-- Witness for C9 with a provided non-empty valid set containing the id and
a fresh priority list: the addition succeeds, and the iff certifies it. -/
theorem C9_add_priority_validation_witness :
    ((addPriorityAccount ⟨["b"], .lowest_balance, 0⟩ "a" (-1) (some ["a", "b"])).1.1 = true ↔
      ((["b"] : List String).contains "a" = false ∧
        (truthySet (some ["a", "b"]) = true →
          ((some ["a", "b"] : Option (List String)).getD []).contains "a" = true))) ∧
    ((addPriorityAccount ⟨["b"], .lowest_balance, 0⟩ "a" (-1) (some ["a", "b"])).1.1 = false →
      (addPriorityAccount ⟨["b"], .lowest_balance, 0⟩ "a" (-1) (some ["a", "b"])).2 =
        ⟨["b"], .lowest_balance, 0⟩) :=
  C9_add_priority_validation ⟨["b"], .lowest_balance, 0⟩ "a" (-1) (some ["a", "b"])

/-- After a successful fetch the enabled flag is exactly the negation of the
snapshot exhaustion flag. -/
theorem refreshAccountInternal_ok_enabled (acc : Account)
    (cache : String → Option CachedQuota) (now : ℚ) (info : UsageInfo) :
    (refreshAccountInternal acc cache now (.ok info)).1.enabled =
      !(CachedQuota.fromUsageInfo acc.id info now).is_exhausted := by
  unfold refreshAccountInternal
  cases hex : (CachedQuota.fromUsageInfo acc.id info now).is_exhausted with
  | true => cases hen : acc.enabled <;> simp [hex, hen]
  | false => cases hen : acc.enabled <;> simp [hex, hen]

/-- A success snapshot is exhausted exactly when the fetched balance is
nonpositive. -/
theorem fromUsageInfo_is_exhausted (id : String) (info : UsageInfo) (now : ℚ) :
    (CachedQuota.fromUsageInfo id info now).is_exhausted = decide (info.balance ≤ 0) := by
  unfold CachedQuota.fromUsageInfo CachedQuota.updateBalanceStatus
  by_cases hb : info.balance ≤ 0
  · simp [hb]
  · by_cases hl : 0 < info.usage_limit
    · by_cases hf : info.balance / info.usage_limit * 100 ≤ LOW_BALANCE_THRESHOLD * 100
      · simp [hb, hl, hf]
      · simp [hb, hl, hf]
    · simp [hb, hl]

/-- Counterexample to C6 as stated: the scheduler tracks no disable origin.
An account that is disabled without the scheduler ever having touched it is
re-enabled by the very first successful positive-balance snapshot. -/
theorem C6_counterexample :
    (refreshAccountInternal { id := "x", enabled := false } (fun _ => none) 0
        (.ok { usage_limit := 1000, current_usage := 950, balance := 50 })).1.enabled = true ∧
    (Account.enabled { id := "x", enabled := false }) = false := by
  constructor
  · rw [refreshAccountInternal_ok_enabled, fromUsageInfo_is_exhausted]
    norm_num
  · rfl

/-- C6 amended: after a successful snapshot the account enabled flag becomes
the negation of the snapshot exhaustion (so an exhausted snapshot disables an
enabled account, and a positive balance re-enables any disabled account, with
no origin tracking); the snapshot is exhausted exactly when the fetched
balance is nonpositive; the snapshot is written to the cache and the call
reports success; a failed fetch writes an error snapshot and leaves the
account untouched. -/
theorem C6_auto_enable_disable (acc : Account) (cache : String → Option CachedQuota)
    (now : ℚ) (info : UsageInfo) (m : String) :
    ((refreshAccountInternal acc cache now (.ok info)).1.enabled =
      !(CachedQuota.fromUsageInfo acc.id info now).is_exhausted) ∧
    ((CachedQuota.fromUsageInfo acc.id info now).is_exhausted = decide (info.balance ≤ 0)) ∧
    ((refreshAccountInternal acc cache now (.ok info)).2.1 acc.id =
      some (CachedQuota.fromUsageInfo acc.id info now)) ∧
    ((refreshAccountInternal acc cache now (.ok info)).2.2 = true) ∧
    ((refreshAccountInternal acc cache now (.ok info)).1.id = acc.id ∧
      (refreshAccountInternal acc cache now (.ok info)).1.status = acc.status ∧
      (refreshAccountInternal acc cache now (.ok info)).1.request_count = acc.request_count ∧
      (refreshAccountInternal acc cache now (.ok info)).1.error_count = acc.error_count) ∧
    ((refreshAccountInternal acc cache now (.err m)).1 = acc) ∧
    ((refreshAccountInternal acc cache now (.err m)).2.1 acc.id =
      some (CachedQuota.fromError acc.id m now)) ∧
    ((refreshAccountInternal acc cache now (.err m)).2.2 = false) := by
  refine ⟨?_, ?_, ?_, ?_, ?_, ?_, ?_, ?_⟩
  · exact refreshAccountInternal_ok_enabled acc cache now info
  · exact fromUsageInfo_is_exhausted acc.id info now
  · simp [refreshAccountInternal, cacheSet]
  · simp [refreshAccountInternal]
  · unfold refreshAccountInternal
    cases hex : (CachedQuota.fromUsageInfo acc.id info now).is_exhausted with
    | true =>
      cases hen : acc.enabled <;> simp [hex, hen]
    | false =>
      cases hen : acc.enabled <;> simp [hex, hen]
  · rfl
  · simp [refreshAccountInternal, cacheSet]
  · rfl

/-- The wait retry_with_backoff actually performs after failed attempt i: the
rate-limit classification is consulted only for returned failure tuples;
raised exceptions always get the plain exponential delay. -/
def expectedDelay (op : ℕ → OpResult) (b : ℚ) (i : ℕ) : ℚ :=
  match op i with
  | .err d => if isRateLimitError d then b * 3 * 2 ^ i else b * 2 ^ i
  | _ => b * 2 ^ i

/-- Closed form of the retry loop over an always-failing operation. -/
theorem retryLoop_always_fails (op : ℕ → OpResult) (b : ℚ) (retries : ℕ) :
    ∀ remaining attempt lastError waits calls,
      attempt + remaining = retries + 1 →
      (∀ i, i ≤ retries → (op i).isFailure = true) →
      retryLoop op b retries attempt remaining lastError waits calls =
        ⟨false,
         (match remaining with
          | 0 => lastError
          | _ + 1 => some ((op (attempt + remaining - 1)).failMsg)),
         calls + remaining,
         waits.reverse ++ (List.range' attempt (remaining - 1)).map (expectedDelay op b)⟩ := by
  intro remaining
  induction remaining with
  | zero =>
    intro attempt lastError waits calls _ _
    simp [retryLoop]
  | succ rem ih =>
    intro attempt lastError waits calls h1 h2
    have hat : attempt ≤ retries := by omega
    have hfail := h2 attempt hat
    cases hop : op attempt with
    | ok d => simp [OpResult.isFailure, hop] at hfail
    | plain d => simp [OpResult.isFailure, hop] at hfail
    | err d =>
      simp only [retryLoop, hop]
      cases rem with
      | zero =>
        have hnl : ¬ attempt < retries := by omega
        rw [if_neg hnl]
        rw [ih (attempt + 1) (some d) waits (calls + 1) (by omega) h2]
        simp [hop, OpResult.failMsg]
      | succ r =>
        have hlt : attempt < retries := by omega
        rw [if_pos hlt]
        rw [ih (attempt + 1) (some d)
          ((if isRateLimitError d then getRateLimitDelay attempt b else b * 2 ^ attempt) :: waits)
          (calls + 1) (by omega) h2]
        have hdelay : expectedDelay op b attempt =
            (if isRateLimitError d then getRateLimitDelay attempt b else b * 2 ^ attempt) := by
          unfold expectedDelay getRateLimitDelay
          rw [hop]
        have hX : attempt + 1 + (r + 1) - 1 = attempt + (r + 1 + 1) - 1 := by omega
        have hC : calls + 1 + (r + 1) = calls + (r + 1 + 1) := by omega
        have hR1 : r + 1 + 1 - 1 = r + 1 := by omega
        have hR2 : r + 1 - 1 = r := by omega
        rw [hR1, hR2, List.reverse_cons, List.range'_succ, List.map_cons, ← hdelay,
          List.append_assoc]
        simp [hX, hC]
    | exc m =>
      simp only [retryLoop, hop]
      cases rem with
      | zero =>
        have hnl : ¬ attempt < retries := by omega
        rw [if_neg hnl]
        rw [ih (attempt + 1) (some m) waits (calls + 1) (by omega) h2]
        simp [hop, OpResult.failMsg]
      | succ r =>
        have hlt : attempt < retries := by omega
        rw [if_pos hlt]
        rw [ih (attempt + 1) (some m) ((b * 2 ^ attempt) :: waits) (calls + 1) (by omega) h2]
        have hdelay : expectedDelay op b attempt = b * 2 ^ attempt := by
          unfold expectedDelay
          rw [hop]
        have hX : attempt + 1 + (r + 1) - 1 = attempt + (r + 1 + 1) - 1 := by omega
        have hC : calls + 1 + (r + 1) = calls + (r + 1 + 1) := by omega
        have hR1 : r + 1 + 1 - 1 = r + 1 := by omega
        have hR2 : r + 1 - 1 = r := by omega
        rw [hR1, hR2, List.reverse_cons, List.range'_succ, List.map_cons, ← hdelay,
          List.append_assoc]
        simp [hX, hC]

/-- Counterexample to C3 as stated: an operation that always raises an
exception whose message contains 429 is rate-limit-classified, yet the wait
after attempt 0 with base delay 1 is the plain 1 (not 3), because the
exception handler never consults the classification. -/
theorem C3_counterexample :
    (retryWithBackoff (fun _ => OpResult.exc "429") 1 1).waits = [(1 : ℚ) * 2 ^ 0] ∧
    isRateLimitError "429" = true ∧
    (1 : ℚ) * 2 ^ 0 ≠ 1 * 3 * 2 ^ 0 := by
  refine ⟨rfl, by decide, by norm_num⟩

/-- C3 amended: an operation failing on every attempt is called exactly N+1
times, the last error is returned, and the wait after attempt i is
base*2^i, raised to base*3*2^i only when the failure was a returned error
tuple whose string is rate-limit-classified (a raised exception always gets
the plain exponential wait, even when its message contains 429). -/
theorem C3_retry_backoff (op : ℕ → OpResult) (N : ℕ) (b : ℚ)
    (hf : ∀ i, i ≤ N → (op i).isFailure = true) :
    retryWithBackoff op N b =
      ⟨false, some ((op N).failMsg), N + 1, (List.range N).map (expectedDelay op b)⟩ := by
  unfold retryWithBackoff
  rw [retryLoop_always_fails op b N (N + 1) 0 none [] 0 (by omega) hf]
  have h1 : 0 + (N + 1) - 1 = N := by omega
  have h2 : N + 1 - 1 = N := by omega
  rw [h1, h2, List.range_eq_range']
  simp

/-- Witness for C3 at a concrete always-failing operation (first error
rate-limit-classified, later errors not), two retries, base delay 1. -/
theorem C3_retry_backoff_witness :
    retryWithBackoff (fun i => OpResult.err (if i = 0 then "429 too many" else "boom")) 2 1 =
      ⟨false,
       some ((OpResult.err (if 2 = 0 then "429 too many" else "boom")).failMsg),
       2 + 1,
       (List.range 2).map
         (expectedDelay (fun i => OpResult.err (if i = 0 then "429 too many" else "boom")) 1)⟩ :=
  C3_retry_backoff (fun i => OpResult.err (if i = 0 then "429 too many" else "boom")) 2 1
    (by decide)

/-- finish_refresh always clears the _is_refreshing flag. -/
theorem finishRefresh_not_refreshing (s : ManagerState) (status : String)
    (message : Option String) (now : ℚ) :
    (finishRefresh s status message now).is_refreshing = false := by
  unfold finishRefresh
  cases s.progress with
  | none => rfl
  | some p =>
    cases message with
    | none =>
      by_cases h : status = "completed" <;> simp [h]
    | some m => rfl

/-- release_refresh_lock clears the lock and keeps the refreshing flag. -/
theorem releaseRefreshLock_fields (s : ManagerState) :
    (releaseRefreshLock s).lockHeld = false ∧
      (releaseRefreshLock s).is_refreshing = s.is_refreshing := by
  constructor <;> rfl

/-- A running progress snapshot of a batch in flight. -/
def runningProgress : RefreshProgress :=
  { total := 3, completed := 1, success := 1, failed := 0, current_account := some "a",
    status := "running", started_at := 5, message := some "正在刷新: a" }

/-- A manager state whose refresh lock is held by a running batch. -/
def heldState : ManagerState :=
  { lockHeld := true, is_refreshing := true, progress := some runningProgress,
    last_refresh_time := none }

/-- Counterexample to C4 as stated: with the lock already held by a running
batch (so a progress object with status running exists), the call returns
that running progress, not one with status error and the refresh-in-progress
message. -/
theorem C4_counterexample :
    (refreshAllWithToken heldState [] (fun _ => false) true true none 7).1 =
      some runningProgress ∧
    runningProgress.status = "running" ∧
    ("running" : String) ≠ "error" := by
  exact ⟨rfl, rfl, by decide⟩

/-- C4 amended: when the refresh lock is already held the call starts no new
batch and leaves the state untouched, returning the current progress if one
exists (whatever its status) and otherwise a fresh progress with status error
and the refresh-in-progress message; when the lock is free, on every exit
path (batch exception, zero accounts after filtering, or normal completion)
the lock is released and is_refreshing() is false afterwards. -/
theorem C4_lock_and_release (s : ManagerState) (accounts : List Account)
    (outcome : Account → Bool) (skip_disabled skip_error : Bool)
    (batchExc : Option String) (now : ℚ) :
    (s.lockHeld = true →
      (refreshAllWithToken s accounts outcome skip_disabled skip_error batchExc now).2 = s ∧
      ((∀ p, s.progress = some p →
        (refreshAllWithToken s accounts outcome skip_disabled skip_error batchExc now).1 =
          some p) ∧
       (s.progress = none →
        (refreshAllWithToken s accounts outcome skip_disabled skip_error batchExc now).1 =
          some { total := 0, status := "error", started_at := now,
                 message := some "刷新操作正在进行中" }))) ∧
    (s.lockHeld = false →
      (refreshAllWithToken s accounts outcome skip_disabled skip_error batchExc now).2.lockHeld
        = false ∧
      (refreshAllWithToken s accounts outcome skip_disabled
          skip_error batchExc now).2.is_refreshing = false) := by
  constructor
  · intro h
    unfold refreshAllWithToken
    rw [if_pos h]
    cases hp : s.progress with
    | none => exact ⟨rfl, by simp, fun _ => rfl⟩
    | some p =>
      refine ⟨rfl, ?_, ?_⟩
      · intro p2 hp2
        injection hp2 with hpe
        rw [hpe]
      · intro habs
        exact absurd habs (by simp)
  · intro h
    unfold refreshAllWithToken
    rw [if_neg (by simp [h])]
    cases batchExc with
    | some e =>
      exact ⟨(releaseRefreshLock_fields _).1,
        (releaseRefreshLock_fields _).2.trans (finishRefresh_not_refreshing _ _ _ _)⟩
    | none =>
      by_cases ht :
          (filterAccounts skip_disabled skip_error accounts).length = 0
      · simp only [ht, if_pos]
        exact ⟨(releaseRefreshLock_fields _).1,
          (releaseRefreshLock_fields _).2.trans (finishRefresh_not_refreshing _ _ _ _)⟩
      · simp only [ht, if_neg, if_false]
        exact ⟨(releaseRefreshLock_fields _).1,
          (releaseRefreshLock_fields _).2.trans (finishRefresh_not_refreshing _ _ _ _)⟩

/-- Witness for C4: both branches at concrete states (a held lock with a
running progress, and a free lock with one account and a batch exception). -/
theorem C4_lock_and_release_witness :
    ((ManagerState.lockHeld { lockHeld := false } = true →
      (refreshAllWithToken { lockHeld := false } [{ id := "a" }] (fun _ => true) true true
          (some "boom") 3).2 = { lockHeld := false } ∧
      ((∀ p, ManagerState.progress { lockHeld := false } = some p →
        (refreshAllWithToken { lockHeld := false } [{ id := "a" }] (fun _ => true) true true
            (some "boom") 3).1 = some p) ∧
       (ManagerState.progress { lockHeld := false } = none →
        (refreshAllWithToken { lockHeld := false } [{ id := "a" }] (fun _ => true) true true
            (some "boom") 3).1 =
          some { total := 0, status := "error", started_at := 3,
                 message := some "刷新操作正在进行中" }))) ∧
    (ManagerState.lockHeld { lockHeld := false } = false →
      (refreshAllWithToken { lockHeld := false } [{ id := "a" }] (fun _ => true) true true
          (some "boom") 3).2.lockHeld = false ∧
      (refreshAllWithToken { lockHeld := false } [{ id := "a" }] (fun _ => true) true true
          (some "boom") 3).2.is_refreshing = false)) :=
  C4_lock_and_release { lockHeld := false } [{ id := "a" }] (fun _ => true) true true
    (some "boom") 3

/-- Counterexample to C5 as stated, at two inputs.  First: when the token
refresh fails, the wrapper returns the refresh-failure message, not the
original 401 failure.  Second: when the retried call raises a 401-classified
exception, the wrapper refreshes a second time and calls the op a third
time, so refresh_token is not invoked exactly once. -/
theorem C5_counterexample :
    (executeWithAuthRetry (fun _ => OpResult.err "401") (fun _ => (false, "boom")) =
        ⟨false, "Token 刷新失败: boom", 1, 1⟩ ∧
      ("Token 刷新失败: boom" : String) ≠ "401") ∧
    ((executeWithAuthRetry
        (fun i => if i = 0 then OpResult.err "401" else OpResult.exc "401 again")
        (fun _ => (true, "ok"))).refreshCalls = 2 ∧
      (2 : ℕ) ≠ 1) := by
  refine ⟨⟨by decide, by decide⟩, by decide, by decide⟩

/-- C5 amended: the wrapper runs the op; a 401-classified failure (returned
tuple or raised exception) triggers one token refresh; when the refresh
fails, the wrapper returns a failure carrying the refresh error in place of
the original failure; when the refresh succeeds, the op is re-run once and
that second returned result is returned as is (one refresh, two op calls),
provided the second call does not itself raise a 401-classified exception;
non-401 failures and successes pass through with no refresh. -/
theorem C5_auth_retry (op : ℕ → OpResult) (refresh : ℕ → Bool × String) (d d2 m : String) :
    (op 0 = .err d → isAuthError d = true →
      ((refresh 0).1 = false →
        executeWithAuthRetry op refresh =
          ⟨false, "Token 刷新失败: " ++ (refresh 0).2, 1, 1⟩) ∧
      ((refresh 0).1 = true →
        (op 1 = .ok d2 → executeWithAuthRetry op refresh = ⟨true, d2, 2, 1⟩) ∧
        (op 1 = .err d2 → executeWithAuthRetry op refresh = ⟨false, d2, 2, 1⟩) ∧
        (op 1 = .plain d2 → executeWithAuthRetry op refresh = ⟨true, d2, 2, 1⟩))) ∧
    (op 0 = .exc m → isAuthError m = true →
      ((refresh 0).1 = false →
        executeWithAuthRetry op refresh =
          ⟨false, "Token 刷新失败: " ++ (refresh 0).2, 1, 1⟩) ∧
      ((refresh 0).1 = true →
        (op 1 = .ok d2 → executeWithAuthRetry op refresh = ⟨true, d2, 2, 1⟩) ∧
        (op 1 = .err d2 → executeWithAuthRetry op refresh = ⟨false, d2, 2, 1⟩) ∧
        (op 1 = .plain d2 → executeWithAuthRetry op refresh = ⟨true, d2, 2, 1⟩))) ∧
    (op 0 = .err d → isAuthError d = false →
      executeWithAuthRetry op refresh = ⟨false, d, 1, 0⟩) ∧
    (op 0 = .exc m → isAuthError m = false →
      executeWithAuthRetry op refresh = ⟨false, m, 1, 0⟩) ∧
    (op 0 = .ok d → executeWithAuthRetry op refresh = ⟨true, d, 1, 0⟩) := by
  refine ⟨?_, ?_, ?_, ?_, ?_⟩
  · intro h0 ha
    constructor
    · intro hr
      simp only [executeWithAuthRetry, h0]
      rw [if_pos ha, if_neg (by rw [hr]; simp)]
    · intro hr
      refine ⟨?_, ?_, ?_⟩ <;> intro h1 <;>
        · simp only [executeWithAuthRetry, h0]
          rw [if_pos ha, if_pos hr]
          simp only [h1]
  · intro h0 ha
    constructor
    · intro hr
      simp only [executeWithAuthRetry, h0, authRetryOnException]
      rw [if_pos ha, if_neg (by rw [hr]; simp)]
    · intro hr
      refine ⟨?_, ?_, ?_⟩ <;> intro h1 <;>
        · simp only [executeWithAuthRetry, h0, authRetryOnException]
          rw [if_pos ha, if_pos hr]
          simp only [h1]
  · intro h0 ha
    simp only [executeWithAuthRetry, h0]
    rw [if_neg (by rw [ha]; simp)]
  · intro h0 ha
    simp only [executeWithAuthRetry, h0, authRetryOnException]
    rw [if_neg (by rw [ha]; simp)]
  · intro h0
    simp only [executeWithAuthRetry, h0]

/-- Witness for C5: 401 returned once then success, refresh succeeding; the
wrapper returns the success with two op calls and one refresh. -/
theorem C5_auth_retry_witness :
    executeWithAuthRetry
        (fun i => if i = 0 then OpResult.err "HTTP 401 Unauthorized" else OpResult.ok "成功")
        (fun _ => (true, "刷新成功")) =
      ⟨true, "成功", 2, 1⟩ :=
  (((C5_auth_retry
      (fun i => if i = 0 then OpResult.err "HTTP 401 Unauthorized" else OpResult.ok "成功")
      (fun _ => (true, "刷新成功")) "HTTP 401 Unauthorized" "成功" "").1
    rfl (by decide)).2 rfl).1 rfl

/-- Every branch of the summary phase reports truncation. -/
theorem smartCompressRest_truncated (enabled : Bool) (ck : Option String)
    (cg : String → String → Option String) (api : String → Option String)
    (history old_history recent_history : List Json) (kc : ℕ) :
    (smartCompressRest enabled ck cg api history old_history recent_history kc).2.truncated
      = true := by
  unfold smartCompressRest
  cases hcached :
      (match ck.map (fun k => k ++ ":" ++ toString kc) with
       | some k => if enabled then cg k (hashHistory old_history) else none
       | none => none) with
  | some cs => simp [hcached]
  | none =>
    cases hs : generateSummary api old_history with
    | some summary =>
      by_cases he : summary = "" <;> simp [hcached, hs, he]
    | none => simp [hcached, hs]

/-- On a history of at most MIN_KEEP_MESSAGES entries the computed keep count
is exactly MIN_KEEP_MESSAGES. -/
theorem smartCompressKeep_small (history : List Json) (tc rl : ℕ)
    (h1 : history ≠ []) (h2 : history.length ≤ MIN_KEEP_MESSAGES) :
    smartCompressKeep history tc rl = MIN_KEEP_MESSAGES := by
  have h6 : history.length ≤ 6 := h2
  have hkc : calculateKeepCount history (pyIntFloor ((tc : ℚ) * (0.8 : ℚ) ^ rl)) =
      MIN_KEEP_MESSAGES := by
    unfold calculateKeepCount
    rw [if_neg (by simp [h1])]
    refine Nat.max_eq_left (le_trans (Nat.min_le_right _ _) ?_)
    show history.length - 1 ≤ MIN_KEEP_MESSAGES
    have : history.length ≤ 6 := h6
    simp only [MIN_KEEP_MESSAGES]
    omega
  unfold smartCompressKeep
  simp only [hkc]
  rw [if_pos h2]
  refine Nat.max_eq_left ?_
  simp only [MIN_KEEP_MESSAGES] at h6 ⊢
  omega

/-- A non-empty history of at most MIN_KEEP_MESSAGES entries passes through
smart_compress unchanged: the kept suffix is the whole history and the old
segment is empty. -/
theorem smartCompress_small_unchanged (enabled : Bool) (ck : Option String)
    (cg : String → String → Option String) (api : String → Option String)
    (st : CompressState) (history : List Json) (tc rl : ℕ)
    (h1 : history ≠ []) (h2 : history.length ≤ MIN_KEEP_MESSAGES) :
    smartCompress enabled ck cg api st history tc rl = (history, st) := by
  unfold smartCompress
  rw [if_neg (by simp [h1])]
  by_cases hc : (histDumps history).length ≤ tc
  · rw [if_pos hc]
  · rw [if_neg hc]
    have hk := smartCompressKeep_small history tc rl h1 h2
    simp only [hk]
    have hlen6 : history.length ≤ 6 := h2
    rw [if_neg (show ¬ MIN_KEEP_MESSAGES < history.length by
      simp only [MIN_KEEP_MESSAGES] at hlen6 ⊢
      omega)]
    rw [if_pos (show 0 < MIN_KEEP_MESSAGES by simp [MIN_KEEP_MESSAGES])]
    rw [Nat.sub_eq_zero_of_le h2, List.drop_zero]
    simp

/-- C10: a non-empty history with at most six entries is returned by
smart_compress unchanged and the truncated flag is left untouched (hence
false when it started false), for every target size and retry level, because
the keep count is floored at six so the old segment is always empty. -/
theorem C10_small_history_unchanged (enabled : Bool) (ck : Option String)
    (cg : String → String → Option String) (api : String → Option String)
    (st : CompressState) (history : List Json) (tc rl : ℕ)
    (h1 : history ≠ []) (h2 : history.length ≤ 6) :
    smartCompress enabled ck cg api st history tc rl = (history, st) ∧
    (smartCompress enabled ck cg api st history tc rl).2.truncated = st.truncated := by
  have h := smartCompress_small_unchanged enabled ck cg api st history tc rl h1 h2
  exact ⟨h, by rw [h]⟩

/-- A small but oversized generic user message. -/
def smallMsg : Json :=
  Json.obj (.cons "role" (.str "user") (.cons "content" (.str "hello there") .nil))

/-- Witness for C10: a two-entry history with a tiny target and a nonzero
retry level is returned unchanged with the flag still false. -/
theorem C10_small_history_unchanged_witness :
    smartCompress true (some "key") (fun _ _ => some "cached") (fun _ => some "summary")
        ⟨false, ""⟩ [smallMsg, smallMsg] 0 2 = ([smallMsg, smallMsg], ⟨false, ""⟩) ∧
    (smartCompress true (some "key") (fun _ _ => some "cached") (fun _ => some "summary")
        ⟨false, ""⟩ [smallMsg, smallMsg] 0 2).2.truncated = (⟨false, ""⟩ : CompressState).truncated :=
  C10_small_history_unchanged true (some "key") (fun _ _ => some "cached")
    (fun _ => some "summary") ⟨false, ""⟩ [smallMsg, smallMsg] 0 2
    (List.cons_ne_nil _ _) (by simp)

/-- A 50000-character payload. -/
def bigA : String := ⟨List.replicate 50000 'a'⟩

/-- A generic user message whose serialization has 50031 characters. -/
def bigMsg : Json :=
  Json.obj (.cons "role" (.str "user") (.cons "content" (.str bigA) .nil))

/-- Three huge messages: serialized length 150099, beyond the auto-compress
threshold, yet only three entries. -/
def bigHist : List Json := [bigMsg, bigMsg, bigMsg]

/-- The JSON escape of a cons. -/
theorem jsonEscapeList_cons (c : Char) (l : List Char) :
    jsonEscapeList (c :: l) = jsonEscapeChar c ++ jsonEscapeList l := by
  simp [jsonEscapeList]

/-- The letter a is not escaped. -/
theorem jsonEscapeChar_a : jsonEscapeChar 'a' = ['a'] := by decide

/-- A run of letters a is unchanged by escaping. -/
theorem jsonEscapeList_replicate (n : ℕ) :
    jsonEscapeList (List.replicate n 'a') = List.replicate n 'a' := by
  induction n with
  | zero => rfl
  | succ k ih =>
    rw [List.replicate_succ, jsonEscapeList_cons, jsonEscapeChar_a, ih]
    rfl

/-- Length of the serialized big payload string. -/
theorem dumpString_bigA_len : (jsonDumpString bigA).length = 50002 := by
  show ('"' :: (jsonEscapeList bigA.data ++ ['"'])).length = 50002
  rw [show bigA.data = List.replicate 50000 'a' from rfl, jsonEscapeList_replicate]
  rw [List.length_cons, List.length_append, List.length_replicate]
  norm_num

/-- Length of the serialized big message. -/
theorem dumps_bigMsg_len : (jsonDumps bigMsg).length = 50031 := by
  have he : jsonDumps bigMsg =
      "\x7b" ++ (jsonDumpString "role" ++ ": " ++ jsonDumpString "user" ++ ", " ++
        (jsonDumpString "content" ++ ": " ++ jsonDumpString bigA)) ++ "\x7d" := rfl
  have h1 : (jsonDumpString "role").length = 6 := by decide
  have h2 : (jsonDumpString "user").length = 6 := by decide
  have h3 : (jsonDumpString "content").length = 9 := by decide
  rw [he]
  simp only [String.length_append, h1, h2, h3, dumpString_bigA_len]
  rw [show ("\x7b" : String).length = 1 from rfl, show ("\x7d" : String).length = 1 from rfl,
    show (": " : String).length = 2 from rfl, show (", " : String).length = 2 from rfl]

/-- Length of the serialized three-message history. -/
theorem histDumps_bigHist_len : (histDumps bigHist).length = 150099 := by
  have he : histDumps bigHist =
      "[" ++ (jsonDumps bigMsg ++ ", " ++ (jsonDumps bigMsg ++ ", " ++ jsonDumps bigMsg)) ++
        "]" := rfl
  rw [he]
  simp only [String.length_append, dumps_bigMsg_len]
  rw [show ("[" : String).length = 1 from rfl, show ("]" : String).length = 1 from rfl,
    show (", " : String).length = 2 from rfl]

/-- Counterexample to C8 as stated: a three-entry history serialized to
150099 characters (over the 120000 threshold) is returned by smart_compress
unchanged, with the truncated flag still false and no explicit failure, so
neither disjunct of the claim holds. -/
theorem C8_counterexample :
    (smartCompress true none (fun _ _ => none) (fun _ => none) ⟨false, ""⟩ bigHist
        SAFE_CHAR_LIMIT 0).1 = bigHist ∧
    (smartCompress true none (fun _ _ => none) (fun _ => none) ⟨false, ""⟩ bigHist
        SAFE_CHAR_LIMIT 0).2.truncated = false ∧
    AUTO_COMPRESS_THRESHOLD < (histDumps bigHist).length := by
  have h := smartCompress_small_unchanged true none (fun _ _ => none) (fun _ => none)
    ⟨false, ""⟩ bigHist SAFE_CHAR_LIMIT 0 (List.cons_ne_nil _ _)
    (by norm_num [bigHist, MIN_KEEP_MESSAGES])
  refine ⟨by rw [h], by rw [h], ?_⟩
  rw [histDumps_bigHist_len]
  norm_num [AUTO_COMPRESS_THRESHOLD]

/-- C8 amended: on any input whose serialization exceeds the 120000-character
threshold, smart_compress either reports truncation (truncated = true, on
every path that summarizes or falls back), or returns the history unchanged
with the state untouched (which happens exactly when the computed keep count
covers the whole history, so the old segment is empty); a 120000-character
bound on the output is not guaranteed. -/
theorem C8_compress_threshold (enabled : Bool) (ck : Option String)
    (cg : String → String → Option String) (api : String → Option String)
    (st : CompressState) (history : List Json) (rl : ℕ)
    (h : AUTO_COMPRESS_THRESHOLD < (histDumps history).length) :
    (smartCompress enabled ck cg api st history SAFE_CHAR_LIMIT rl).2.truncated = true ∨
    ((smartCompress enabled ck cg api st history SAFE_CHAR_LIMIT rl).1 = history ∧
      (smartCompress enabled ck cg api st history SAFE_CHAR_LIMIT rl).2 = st) := by
  have h1 : history ≠ [] := by
    intro he
    rw [he] at h
    revert h
    decide
  have hlen : 1 ≤ history.length := List.length_pos.mpr h1
  simp only [smartCompress]
  rw [if_neg (by simp [h1])]
  rw [if_neg (show ¬ (histDumps history).length ≤ SAFE_CHAR_LIMIT by
    simp only [SAFE_CHAR_LIMIT]
    simp only [AUTO_COMPRESS_THRESHOLD] at h
    omega)]
  by_cases hkl : smartCompressKeep history SAFE_CHAR_LIMIT rl < history.length
  · rw [if_pos hkl]
    have htk : (history.take
        (history.length - smartCompressKeep history SAFE_CHAR_LIMIT rl)).isEmpty = false := by
      rw [List.isEmpty_eq_false]
      intro hcontra
      rcases List.take_eq_nil_iff.mp hcontra with hz | hz
      · omega
      · exact h1 hz
    rw [if_neg (by rw [htk]; simp)]
    exact Or.inl (smartCompressRest_truncated enabled ck cg api history _ _ _)
  · rw [if_neg hkl]
    rw [if_pos (show (([] : List Json).isEmpty) = true from rfl)]
    have hke : history.length ≤ smartCompressKeep history SAFE_CHAR_LIMIT rl :=
      Nat.le_of_not_lt hkl
    rw [if_pos (show 0 < smartCompressKeep history SAFE_CHAR_LIMIT rl by omega)]
    rw [Nat.sub_eq_zero_of_le hke, List.drop_zero]
    exact Or.inr ⟨rfl, rfl⟩

/-- Witness for C8 (amended) at the oversized three-entry history: the
disjunction holds there via the unchanged branch. -/
theorem C8_compress_threshold_witness :
    (smartCompress false none (fun _ _ => none) (fun _ => some "摘要") ⟨false, ""⟩ bigHist
        SAFE_CHAR_LIMIT 1).2.truncated = true ∨
    ((smartCompress false none (fun _ _ => none) (fun _ => some "摘要") ⟨false, ""⟩ bigHist
        SAFE_CHAR_LIMIT 1).1 = bigHist ∧
      (smartCompress false none (fun _ _ => none) (fun _ => some "摘要") ⟨false, ""⟩ bigHist
        SAFE_CHAR_LIMIT 1).2 = ⟨false, ""⟩) :=
  C8_compress_threshold false none (fun _ _ => none) (fun _ => some "摘要") ⟨false, ""⟩
    bigHist 1
    (by rw [histDumps_bigHist_len]; norm_num [AUTO_COMPRESS_THRESHOLD])

/-- Key comparison is reflexive. -/
theorem keyLe_refl (env : Env) (a : Account) : keyLe env a a :=
  Or.inr ⟨rfl, le_refl _⟩

/-- Key comparison is transitive. -/
theorem keyLe_trans (env : Env) {x y z : Account}
    (h1 : keyLe env x y) (h2 : keyLe env y z) : keyLe env x z := by
  rcases h1 with h1 | ⟨e1, r1⟩ <;> rcases h2 with h2 | ⟨e2, r2⟩
  · exact Or.inl (lt_trans h1 h2)
  · exact Or.inl (e2 ▸ h1)
  · exact Or.inl (by rw [e1]; exact h2)
  · exact Or.inr ⟨e1.trans e2, le_trans r1 r2⟩

/-- Strict key comparison implies the non-strict one. -/
theorem keyLt_imp_keyLe (env : Env) {x y : Account} (h : keyLt env x y) : keyLe env x y := by
  rcases h with h | ⟨e, r⟩
  · exact Or.inl h
  · exact Or.inr ⟨e, le_of_lt r⟩

/-- Totality: a failed strict comparison flips to a non-strict one. -/
theorem keyLe_of_not_keyLt (env : Env) {x y : Account} (h : ¬ keyLt env x y) :
    keyLe env y x := by
  rw [keyLt, not_or] at h
  obtain ⟨h1, h2⟩ := h
  have hyx : balanceOf env y ≤ balanceOf env x := le_of_not_lt h1
  rcases lt_or_eq_of_le hyx with hlt | heq
  · exact Or.inl hlt
  · have hr : ¬ x.request_count < y.request_count := fun hr => h2 ⟨heq.symm, hr⟩
    exact Or.inr ⟨heq, Nat.le_of_not_lt hr⟩

/-- The Python min fold returns a member that is key-minimal. -/
theorem pyMinFold_spec (env : Env) :
    ∀ (rest : List Account) (a : Account),
      pyMinFold env a rest ∈ a :: rest ∧
        ∀ x ∈ a :: rest, keyLe env (pyMinFold env a rest) x := by
  intro rest
  induction rest with
  | nil =>
    intro a
    constructor
    · simp [pyMinFold]
    · intro x hx
      rcases List.mem_cons.mp hx with rfl | hx'
      · simp only [pyMinFold, List.foldl_nil]
        exact keyLe_refl env x
      · simp at hx'
  | cons b rest ih =>
    intro a
    by_cases hba : keyLt env b a
    · have hfold : pyMinFold env a (b :: rest) = pyMinFold env b rest := by
        unfold pyMinFold
        rw [List.foldl_cons, if_pos hba]
      obtain ⟨ihmem, ihle⟩ := ih b
      constructor
      · rw [hfold]
        rcases List.mem_cons.mp ihmem with h | h
        · rw [h]
          exact List.mem_cons_of_mem _ (List.mem_cons_self _ _)
        · exact List.mem_cons_of_mem _ (List.mem_cons_of_mem _ h)
      · intro x hx
        rw [hfold]
        rcases List.mem_cons.mp hx with rfl | hx'
        · exact keyLe_trans env (ihle b (List.mem_cons_self _ _)) (keyLt_imp_keyLe env hba)
        · rcases List.mem_cons.mp hx' with rfl | hx''
          · exact ihle x (List.mem_cons_self _ _)
          · exact ihle x (List.mem_cons_of_mem _ hx'')
    · have hfold : pyMinFold env a (b :: rest) = pyMinFold env a rest := by
        unfold pyMinFold
        rw [List.foldl_cons, if_neg hba]
      obtain ⟨ihmem, ihle⟩ := ih a
      constructor
      · rw [hfold]
        rcases List.mem_cons.mp ihmem with h | h
        · rw [h]
          exact List.mem_cons_self _ _
        · exact List.mem_cons_of_mem _ (List.mem_cons_of_mem _ h)
      · intro x hx
        rw [hfold]
        rcases List.mem_cons.mp hx with rfl | hx'
        · exact ihle x (List.mem_cons_self _ _)
        · rcases List.mem_cons.mp hx' with rfl | hx''
          · exact keyLe_trans env (ihle a (List.mem_cons_self _ _))
              (keyLe_of_not_keyLt env hba)
          · exact ihle x (List.mem_cons_of_mem _ hx'')

/-- A successful priority walk returns an available listed account whose id
is the first priority entry matched by any available account. -/
theorem findPriority_some (env : Env) (accounts : List Account) :
    ∀ (ps : List String) (r : Account), findPriority env accounts ps = some r →
      r ∈ accounts ∧ r.isAvailable env = true ∧
        ∃ pre post, ps = pre ++ r.id :: post ∧
          ∀ q ∈ pre, ∀ b ∈ accounts, b.isAvailable env = true → b.id ≠ q := by
  intro ps
  induction ps with
  | nil =>
    intro r h
    simp [findPriority] at h
  | cons p ps ih =>
    intro r h
    unfold findPriority at h
    cases hf : accounts.find? (fun a => a.id == p && a.isAvailable env) with
    | some a =>
      simp only [hf] at h
      obtain rfl : a = r := Option.some.inj h
      have hp := List.find?_some hf
      rw [Bool.and_eq_true, beq_iff_eq] at hp
      refine ⟨List.mem_of_find?_eq_some hf, hp.2, [], ps, ?_, by simp⟩
      rw [hp.1]
      rfl
    | none =>
      simp only [hf] at h
      obtain ⟨hmem, havail, pre, post, hps, hpre⟩ := ih r h
      refine ⟨hmem, havail, p :: pre, post, by rw [hps]; rfl, ?_⟩
      intro q hq b hb hbav
      rcases List.mem_cons.mp hq with rfl | hq'
      · intro hbid
        have hnone := List.find?_eq_none.mp hf b hb
        rw [Bool.and_eq_true, beq_iff_eq] at hnone
        exact hnone ⟨hbid, hbav⟩
      · exact hpre q hq' b hb hbav

/-- A failed priority walk means no available account bears a listed id. -/
theorem findPriority_none (env : Env) (accounts : List Account) :
    ∀ (ps : List String), findPriority env accounts ps = none →
      ∀ a ∈ accounts, a.isAvailable env = true → a.id ∉ ps := by
  intro ps
  induction ps with
  | nil =>
    intro _ a _ _
    simp
  | cons p ps ih =>
    intro h a ha hav
    unfold findPriority at h
    cases hf : accounts.find? (fun x => x.id == p && x.isAvailable env) with
    | some x =>
      simp only [hf] at h
      exact absurd h (by simp)
    | none =>
      simp only [hf] at h
      intro hmem
      rcases List.mem_cons.mp hmem with heq | hmem'
      · have hnone := List.find?_eq_none.mp hf a ha
        rw [Bool.and_eq_true, beq_iff_eq] at hnone
        exact hnone ⟨heq, hav⟩
      · exact ih h a ha hav hmem'

/-- If no available account bears a listed id, the priority walk fails. -/
theorem findPriority_eq_none_of_no_match (env : Env) (accounts : List Account)
    (ps : List String)
    (h : ∀ a ∈ accounts, a.isAvailable env = true → a.id ∉ ps) :
    findPriority env accounts ps = none := by
  cases hfp : findPriority env accounts ps with
  | none => rfl
  | some r =>
    exfalso
    obtain ⟨hmem, havail, pre, post, hps, _⟩ := findPriority_some env accounts ps r hfp
    refine h r hmem havail ?_
    rw [hps]
    exact List.mem_append_right _ (List.mem_cons_self _ _)

/-- _select_lowest_balance: none exactly on an unavailable field, otherwise a
key-minimal available member. -/
theorem selectLowestBalance_spec (env : Env) (accounts : List Account) :
    ((∀ a ∈ accounts, a.isAvailable env = false) →
      selectLowestBalance env accounts = none) ∧
    (∀ a ∈ accounts, a.isAvailable env = true →
      ∃ r, selectLowestBalance env accounts = some r ∧ r ∈ accounts ∧
        r.isAvailable env = true ∧
        ∀ b ∈ accounts, b.isAvailable env = true → keyLe env r b) := by
  constructor
  · intro hall
    unfold selectLowestBalance
    have hfe : accounts.filter (fun a => a.isAvailable env) = [] := by
      rw [List.filter_eq_nil_iff]
      intro a ha
      simp [hall a ha]
    rw [hfe]
  · intro a ha hav
    unfold selectLowestBalance
    cases hfil : accounts.filter (fun a => a.isAvailable env) with
    | nil =>
      exfalso
      have hmem : a ∈ accounts.filter (fun a => a.isAvailable env) :=
        List.mem_filter.mpr ⟨ha, hav⟩
      rw [hfil] at hmem
      simp at hmem
    | cons hd tl =>
      obtain ⟨hmem, hle⟩ := pyMinFold_spec env tl hd
      have hmemf : pyMinFold env hd tl ∈ accounts.filter (fun a => a.isAvailable env) := by
        rw [hfil]
        exact hmem
      refine ⟨pyMinFold env hd tl, rfl, (List.mem_filter.mp hmemf).1,
        (List.mem_filter.mp hmemf).2, ?_⟩
      intro b hb hbav
      have hbf : b ∈ accounts.filter (fun a => a.isAvailable env) :=
        List.mem_filter.mpr ⟨hb, hbav⟩
      rw [hfil] at hbf
      exact hle b hbf

/-- C1: under the lowest-balance strategy, (i) whenever some available
account bears a listed priority id, select returns an available listed
account whose id is the earliest priority entry matched by any available
account; (ii) whenever no available account bears a listed id (in particular
with an empty priority list), select returns an available account whose
cached balance is minimal, ties broken by smaller request count (missing or
error snapshots counting as infinite); (iii) with no available account,
select returns none. -/
theorem C1_selector_correct (env : Env) (st : SelectorState) (accounts : List Account)
    (hstrat : st.strategy = .lowest_balance) :
    ((∃ a ∈ accounts, a.isAvailable env = true ∧ a.id ∈ st.priority_accounts) →
      ∃ r, (AccountSelector.select env st accounts).1 = some r ∧ r ∈ accounts ∧
        r.isAvailable env = true ∧
        ∃ pre post, st.priority_accounts = pre ++ r.id :: post ∧
          ∀ q ∈ pre, ∀ b ∈ accounts, b.isAvailable env = true → b.id ≠ q) ∧
    ((∀ a ∈ accounts, a.isAvailable env = true → a.id ∉ st.priority_accounts) →
      (∃ a ∈ accounts, a.isAvailable env = true) →
      ∃ r, (AccountSelector.select env st accounts).1 = some r ∧ r ∈ accounts ∧
        r.isAvailable env = true ∧
        ∀ b ∈ accounts, b.isAvailable env = true →
          (balanceOf env r < balanceOf env b ∨
            (balanceOf env r = balanceOf env b ∧ r.request_count ≤ b.request_count))) ∧
    ((∀ a ∈ accounts, a.isAvailable env = false) →
      (AccountSelector.select env st accounts).1 = none) := by
  refine ⟨?_, ?_, ?_⟩
  · rintro ⟨a, ha, hav, hpid⟩
    unfold AccountSelector.select
    rw [if_neg (by rw [Bool.not_eq_true, List.isEmpty_eq_false]; exact List.ne_nil_of_mem ha)]
    rw [if_neg (by rw [Bool.not_eq_true, List.isEmpty_eq_false]; exact List.ne_nil_of_mem hpid)]
    cases hfp : findPriority env accounts st.priority_accounts with
    | none =>
      exact absurd hpid (findPriority_none env accounts st.priority_accounts hfp a ha hav)
    | some r =>
      simp only [hfp]
      obtain ⟨hmem, havail, pre, post, hps, hpre⟩ :=
        findPriority_some env accounts st.priority_accounts r hfp
      exact ⟨r, rfl, hmem, havail, pre, post, hps, hpre⟩
  · rintro hnopr ⟨a, ha, hav⟩
    unfold AccountSelector.select
    rw [if_neg (by rw [Bool.not_eq_true, List.isEmpty_eq_false]; exact List.ne_nil_of_mem ha)]
    have hbranch :
        (if st.priority_accounts.isEmpty then none
         else findPriority env accounts st.priority_accounts) = (none : Option Account) := by
      by_cases hpe : st.priority_accounts.isEmpty
      · rw [if_pos hpe]
      · rw [if_neg hpe]
        exact findPriority_eq_none_of_no_match env accounts st.priority_accounts hnopr
    rw [hbranch]
    simp only [hstrat]
    obtain ⟨r, hsel, hmem, hravail, hmin⟩ := (selectLowestBalance_spec env accounts).2 a ha hav
    exact ⟨r, by rw [hsel], hmem, hravail, fun b hb hbav => hmin b hb hbav⟩
  · intro hall
    unfold AccountSelector.select
    by_cases hacc : accounts.isEmpty
    · rw [if_pos hacc]
    · rw [if_neg hacc]
      have hbranch :
          (if st.priority_accounts.isEmpty then none
           else findPriority env accounts st.priority_accounts) = (none : Option Account) := by
        by_cases hpe : st.priority_accounts.isEmpty
        · rw [if_pos hpe]
        · rw [if_neg hpe]
          refine findPriority_eq_none_of_no_match env accounts st.priority_accounts ?_
          intro b hb hbav
          rw [hall b hb] at hbav
          exact absurd hbav (by simp)
      rw [hbranch]
      simp only [hstrat]
      rw [(selectLowestBalance_spec env accounts).1 hall]

/-- Witness for C1 at the concrete scenario with balances 500, 100, 800, no
priority list: the minimality clause certifies a lowest-balance pick. -/
def envW : Env :=
  { quotaCache := fun id =>
      if id = "a" then some (CachedQuota.fromUsageInfo "a" { usage_limit := 1000, balance := 500 } 0)
      else if id = "b" then some (CachedQuota.fromUsageInfo "b" { usage_limit := 1000, balance := 100 } 0)
      else if id = "c" then some (CachedQuota.fromUsageInfo "c" { usage_limit := 1000, balance := 800 } 0)
      else none
    qm := fun _ => none
    now := 0 }

/-- The concrete selector state with no priority accounts. -/
def stW : SelectorState := ⟨[], .lowest_balance, 0⟩

/-- The concrete account pool of the witness scenario. -/
def accountsW : List Account := [{ id := "a" }, { id := "b" }, { id := "c" }]

/-- Witness for C1: the instantiated conclusion at the concrete scenario. -/
theorem C1_selector_correct_witness :
    ((∃ a ∈ accountsW, a.isAvailable envW = true ∧ a.id ∈ stW.priority_accounts) →
      ∃ r, (AccountSelector.select envW stW accountsW).1 = some r ∧ r ∈ accountsW ∧
        r.isAvailable envW = true ∧
        ∃ pre post, stW.priority_accounts = pre ++ r.id :: post ∧
          ∀ q ∈ pre, ∀ b ∈ accountsW, b.isAvailable envW = true → b.id ≠ q) ∧
    ((∀ a ∈ accountsW, a.isAvailable envW = true → a.id ∉ stW.priority_accounts) →
      (∃ a ∈ accountsW, a.isAvailable envW = true) →
      ∃ r, (AccountSelector.select envW stW accountsW).1 = some r ∧ r ∈ accountsW ∧
        r.isAvailable envW = true ∧
        ∀ b ∈ accountsW, b.isAvailable envW = true →
          (balanceOf envW r < balanceOf envW b ∨
            (balanceOf envW r = balanceOf envW b ∧ r.request_count ≤ b.request_count))) ∧
    ((∀ a ∈ accountsW, a.isAvailable envW = false) →
      (AccountSelector.select envW stW accountsW).1 = none) :=
  C1_selector_correct envW stW accountsW rfl

end KiroProxy
